import Mathlib

/-!
Verification of the process-invocation core of `postgresql-embedded`
(`src/command/{traits,psql,pg_isready,pg_controldata}.rs`).

Byte strings (`OsString`, `PathBuf`, captured output) are modelled as
`List Nat`, each element one byte.
-/

namespace PgEmbedded

/-- UTF-8 encoding of one Unicode scalar value (as a `Nat`). -/
def encodeScalar (n : Nat) : List Nat :=
  if n < 128 then [n]
  else if n < 2048 then [192 + n / 64, 128 + n % 64]
  else if n < 65536 then [224 + n / 4096, 128 + n / 64 % 64, 128 + n % 64]
  else [240 + n / 262144, 128 + n / 4096 % 64, 128 + n / 64 % 64, 128 + n % 64]

/-- UTF-8 bytes of a Lean string literal, as a list of `Nat`. -/
def s2b (s : String) : List Nat :=
  s.data.foldr (fun c acc => encodeScalar c.toNat ++ acc) []

/-- A UTF-8 continuation byte (`0x80..=0xBF`). -/
def isCont (b : Nat) : Bool := 128 ≤ b && b ≤ 191

/-- Valid first continuation byte for a three-byte lead `b`
(`0xE0` needs `0xA0..=0xBF`, `0xED` needs `0x80..=0x9F`, others `0x80..=0xBF`),
as in the UTF-8 validation table of Rust std. -/
def cont1ok3 (b c : Nat) : Bool :=
  if b = 224 then 160 ≤ c && c ≤ 191
  else if b = 237 then 128 ≤ c && c ≤ 159
  else isCont c

/-- Valid first continuation byte for a four-byte lead `b`
(`0xF0` needs `0x90..=0xBF`, `0xF4` needs `0x80..=0x8F`, others `0x80..=0xBF`). -/
def cont1ok4 (b c : Nat) : Bool :=
  if b = 240 then 144 ≤ c && c ≤ 191
  else if b = 244 then 128 ≤ c && c ≤ 143
  else isCont c

/-- One step of the UTF-8 validation of Rust std (`run_utf8_validation`, the
table used by `Utf8Chunks` and hence by `String::from_utf8_lossy`, which
`OsStr::to_string_lossy` delegates to). Given the first byte `b` and the
remaining bytes, it returns the chunk starting at `b` — a maximal
well-formed scalar sequence (`true`) or the maximal subpart of an
ill-formed sequence (`false`, 1-3 bytes, per the "substitution of maximal
subparts" policy) — together with the bytes left over. -/
def utf8Step (b : Nat) (rest : List Nat) : (List Nat × Bool) × List Nat :=
  if b < 128 then (([b], true), rest)
  else if b < 194 then (([b], false), rest)
  else if b < 224 then
    match rest with
    | [] => (([b], false), [])
    | c1 :: rest2 =>
      if isCont c1 then (([b, c1], true), rest2)
      else (([b], false), c1 :: rest2)
  else if b < 240 then
    match rest with
    | [] => (([b], false), [])
    | c1 :: rest2 =>
      if cont1ok3 b c1 then
        match rest2 with
        | [] => (([b, c1], false), [])
        | c2 :: rest3 =>
          if isCont c2 then (([b, c1, c2], true), rest3)
          else (([b, c1], false), c2 :: rest3)
      else (([b], false), c1 :: rest2)
  else if b < 245 then
    match rest with
    | [] => (([b], false), [])
    | c1 :: rest2 =>
      if cont1ok4 b c1 then
        match rest2 with
        | [] => (([b, c1], false), [])
        | c2 :: rest3 =>
          if isCont c2 then
            match rest3 with
            | [] => (([b, c1, c2], false), [])
            | c3 :: rest4 =>
              if isCont c3 then (([b, c1, c2, c3], true), rest4)
              else (([b, c1, c2], false), c3 :: rest4)
          else (([b, c1], false), c2 :: rest3)
      else (([b], false), c1 :: rest2)
  else (([b], false), rest)

/-- The UTF-8 chunking of a byte string, driven by a step count: each step
consumes at least one byte, so fuel equal to the input length computes all
chunks. -/
def utf8ChunksFuel : Nat → List Nat → List (List Nat × Bool)
  | 0, _ => []
  | _ + 1, [] => []
  | fuel + 1, b :: rest =>
    (utf8Step b rest).1 :: utf8ChunksFuel fuel (utf8Step b rest).2

/-- The UTF-8 chunking of a byte string, following the `Utf8Chunks` iterator of Rust std: maximal well-formed scalar sequences (`true` chunks)
interleaved with maximal subparts of ill-formed sequences (`false`
chunks). -/
def utf8Chunks (l : List Nat) : List (List Nat × Bool) := utf8ChunksFuel l.length l

/-- UTF-8 encoding of U+FFFD REPLACEMENT CHARACTER. -/
def replBytes : List Nat := [239, 191, 189]

/-- Reassemble the lossy decoding from the chunks: well-formed chunks are
copied verbatim, each ill-formed chunk is replaced by U+FFFD, exactly as
`String::from_utf8_lossy` does. -/
def lossyOfChunks : List (List Nat × Bool) → List Nat
  | [] => []
  | (c, ok) :: cs => (if ok then c else replBytes) ++ lossyOfChunks cs

/-- The bytes of `String::from_utf8_lossy(l)`. -/
def fromUtf8Lossy (l : List Nat) : List Nat := lossyOfChunks (utf8Chunks l)

/-- Returns `true` iff `l` is well-formed UTF-8 (no ill-formed chunk). -/
def validUtf8 (l : List Nat) : Bool := (utf8Chunks l).all (fun c => c.2)

/-- Concatenation of the raw bytes of a chunk list. -/
def joinChunks : List (List Nat × Bool) → List Nat
  | [] => []
  | (c, _) :: cs => c ++ joinChunks cs

example : s2b "ab=" = [97, 98, 61] := by decide
example : fromUtf8Lossy (s2b "héllo") = s2b "héllo" := by decide
example : fromUtf8Lossy [104, 128, 105] = [104, 239, 191, 189, 105] := by decide
example : validUtf8 [224, 160] = false := by decide
example : fromUtf8Lossy [224, 160] = replBytes := by decide
example : fromUtf8Lossy [240, 144, 128, 65] = [239, 191, 189, 65] := by decide

/-- Holds when `pat` occurs as a contiguous subsequence of `l`. -/
def containsSeq (pat l : List Nat) : Prop := ∃ s t, l = s ++ pat ++ t

set_option maxHeartbeats 1000000 in
/-- Every chunk produced by one step starts with the byte it was given,
extends it by at most three bytes that were the next input bytes, and an
ill-formed chunk has at most three bytes, three only for a four-byte lead
(`0xF0..=0xF4`). -/
theorem utf8Step_spec (b : Nat) (rest : List Nat) :
    ∃ t ok rest2, utf8Step b rest = ((b :: t, ok), rest2) ∧
      t ++ rest2 = rest ∧ t.length ≤ 3 ∧
      (ok = false → t.length ≤ 2 ∧ (t.length = 2 → 240 ≤ b)) := by
  rcases rest with _ | ⟨c1, _ | ⟨c2, _ | ⟨c3, rest⟩⟩⟩ <;>
  · unfold utf8Step
    dsimp only
    split_ifs <;>
      exact ⟨_, _, _, rfl, by simp, by simp, by simp <;> omega⟩

/-- With enough fuel, chunking is a partition of the input, and every
ill-formed chunk is nonempty, has at most three bytes, and has a
four-byte lead when it has three bytes. -/
theorem utf8ChunksFuel_props : ∀ fuel l, l.length ≤ fuel →
    joinChunks (utf8ChunksFuel fuel l) = l ∧
    ∀ c ∈ utf8ChunksFuel fuel l, c.2 = false →
      ∃ b t, c.1 = b :: t ∧ t.length ≤ 2 ∧ (t.length = 2 → 240 ≤ b) := by
  intro fuel
  induction fuel with
  | zero =>
    intro l hl
    have hnil : l = [] := by cases l <;> simp_all
    subst hnil
    exact ⟨rfl, by simp [utf8ChunksFuel]⟩
  | succ fuel ih =>
    intro l hl
    cases l with
    | nil => exact ⟨rfl, by simp [utf8ChunksFuel]⟩
    | cons b rest =>
      obtain ⟨t, ok, rest2, hstep, hjoin, ht3, hshape⟩ := utf8Step_spec b rest
      have hlen2 : rest2.length ≤ fuel := by
        have := congrArg List.length hjoin
        simp at this
        simp at hl
        omega
      obtain ⟨ihj, ihs⟩ := ih rest2 hlen2
      constructor
      · rw [utf8ChunksFuel, hstep]
        simp only [joinChunks, ihj]
        simp [hjoin]
      · intro c hc hcf
        rw [utf8ChunksFuel, hstep] at hc
        rcases List.mem_cons.mp hc with h | h
        · subst h
          simp only at hcf
          subst hcf
          exact ⟨b, t, rfl, (hshape rfl).1, (hshape rfl).2⟩
        · exact ihs c h hcf

/-- Chunking is a partition: concatenating the chunks gives back the input. -/
theorem chunks_join (l : List Nat) : joinChunks (utf8Chunks l) = l :=
  (utf8ChunksFuel_props l.length l le_rfl).1

/-- Shape of ill-formed chunks: nonempty, at most three bytes, and a
three-byte ill-formed chunk starts with a four-byte lead (`0xF0..=0xF4`). -/
theorem chunks_false_shape (l : List Nat) : ∀ c ∈ utf8Chunks l, c.2 = false →
    ∃ b t, c.1 = b :: t ∧ t.length ≤ 2 ∧ (t.length = 2 → 240 ≤ b) :=
  (utf8ChunksFuel_props l.length l le_rfl).2

/-- Each ill-formed chunk contributes three bytes, a well-formed chunk its
own bytes, so the lossy decoding never shrinks a chunk of at most 3 bytes. -/
theorem joinChunks_length_le : ∀ cs : List (List Nat × Bool),
    (∀ c ∈ cs, c.2 = false → c.1.length ≤ 3) →
    (joinChunks cs).length ≤ (lossyOfChunks cs).length := by
  intro cs
  induction cs with
  | nil => intro h; simp [joinChunks, lossyOfChunks]
  | cons c cs ih =>
    intro h
    obtain ⟨cb, ok⟩ := c
    have htail := ih (fun x hx => h x (List.mem_cons_of_mem _ hx))
    cases ok with
    | true => simp [joinChunks, lossyOfChunks]; omega
    | false =>
      have hlen : cb.length ≤ 3 := h (cb, false) (List.mem_cons_self _ _) rfl
      simp [joinChunks, lossyOfChunks, replBytes]
      omega

/-- If every chunk is well-formed the lossy decoding is the identity. -/
theorem lossyOfChunks_eq_join : ∀ cs : List (List Nat × Bool),
    (∀ c ∈ cs, c.2 = true) → lossyOfChunks cs = joinChunks cs := by
  intro cs
  induction cs with
  | nil => intro h; rfl
  | cons c cs ih =>
    intro h
    obtain ⟨cb, ok⟩ := c
    have hh := h (cb, ok) (List.mem_cons_self _ _)
    simp at hh
    subst hh
    simp [joinChunks, lossyOfChunks, ih (fun x hx => h x (List.mem_cons_of_mem _ hx))]

/-- The function `from_utf8_lossy` is the identity on well-formed UTF-8. -/
theorem lossy_of_valid (l : List Nat) (h : validUtf8 l = true) :
    fromUtf8Lossy l = l := by
  have hall : ∀ c ∈ utf8Chunks l, c.2 = true := by
    simpa [validUtf8, List.all_eq_true] using h
  unfold fromUtf8Lossy
  rw [lossyOfChunks_eq_join _ hall, chunks_join]

/-- The lossy decoding of a chunk list with an ill-formed chunk contains
the replacement character bytes. -/
theorem repl_in_lossyOfChunks : ∀ cs : List (List Nat × Bool),
    (∃ c ∈ cs, c.2 = false) → containsSeq replBytes (lossyOfChunks cs) := by
  intro cs
  induction cs with
  | nil => rintro ⟨c, hc, _⟩; simp at hc
  | cons c cs ih =>
    rintro ⟨d, hd, hdf⟩
    obtain ⟨cb, ok⟩ := c
    rcases List.mem_cons.mp hd with h | h
    · subst h
      simp only at hdf
      subst hdf
      exact ⟨[], lossyOfChunks cs, by simp [lossyOfChunks]⟩
    · obtain ⟨s, t, hst⟩ := ih ⟨d, h, hdf⟩
      exact ⟨(if ok then cb else replBytes) ++ s, t, by simp [lossyOfChunks, hst]⟩

/-- The lossy decoding of ill-formed input contains U+FFFD. -/
theorem repl_in_lossy (l : List Nat) (h : validUtf8 l = false) :
    containsSeq replBytes (fromUtf8Lossy l) := by
  apply repl_in_lossyOfChunks
  by_contra hno
  push_neg at hno
  have : validUtf8 l = true := by
    simp only [validUtf8, List.all_eq_true]
    intro c hc
    by_contra hcf
    exact hno c hc (by revert hcf; cases c.2 <;> simp)
  simp [this] at h

/-- A chunk list with an ill-formed chunk decodes either to strictly more
bytes than its input, or to a byte string that provably differs from the
input at some index. -/
theorem lossy_diff_of_chunk_false : ∀ cs : List (List Nat × Bool),
    (∀ c ∈ cs, c.2 = false →
      ∃ b t, c.1 = b :: t ∧ t.length ≤ 2 ∧ (t.length = 2 → 240 ≤ b)) →
    (∃ c ∈ cs, c.2 = false) →
    (joinChunks cs).length < (lossyOfChunks cs).length ∨
      ∃ (i x y : Nat), (lossyOfChunks cs)[i]? = some x ∧ (joinChunks cs)[i]? = some y ∧ x ≠ y := by
  intro cs
  induction cs with
  | nil => rintro _ ⟨c, hc, _⟩; simp at hc
  | cons c cs ih =>
    rintro hwf ⟨d, hd, hdf⟩
    obtain ⟨cb, ok⟩ := c
    have hwftail : ∀ c ∈ cs, c.2 = false →
        ∃ b t, c.1 = b :: t ∧ t.length ≤ 2 ∧ (t.length = 2 → 240 ≤ b) :=
      fun x hx => hwf x (List.mem_cons_of_mem _ hx)
    have hlentail : (joinChunks cs).length ≤ (lossyOfChunks cs).length := by
      apply joinChunks_length_le
      intro x hx hxf
      obtain ⟨b, t, hbt, ht, _⟩ := hwftail x hx hxf
      simp [hbt]; omega
    cases ok with
    | true =>
      have htailfalse : ∃ c ∈ cs, c.2 = false := by
        rcases List.mem_cons.mp hd with h | h
        · subst h; simp at hdf
        · exact ⟨d, h, hdf⟩
      rcases ih hwftail htailfalse with h | ⟨i, x, y, hx, hy, hxy⟩
      · left; simp [joinChunks, lossyOfChunks]; omega
      · right
        refine ⟨cb.length + i, x, y, ?_, ?_, hxy⟩
        · rw [lossyOfChunks, if_pos rfl, List.getElem?_append_right (by omega)]
          simpa using hx
        · rw [joinChunks, List.getElem?_append_right (by omega)]
          simpa using hy
    | false =>
      obtain ⟨b, t, hbt, ht, h3⟩ := hwf (cb, false) (List.mem_cons_self _ _) rfl
      simp only at hbt
      by_cases h2 : t.length = 2
      · right
        refine ⟨0, 239, b, ?_, ?_, by have := h3 h2; omega⟩
        · rw [lossyOfChunks, if_neg (by simp), List.getElem?_append_left
            (by simp [replBytes])]
          simp [replBytes]
        · rw [joinChunks, hbt]
          simp
      · left
        have : cb.length ≤ 2 := by simp [hbt]; omega
        simp [joinChunks, lossyOfChunks, replBytes]
        omega

/-- Ill-formed input either grows strictly under lossy decoding or differs
at a concrete index from the decoding. -/
theorem lossy_diff (l : List Nat) (h : validUtf8 l = false) :
    l.length < (fromUtf8Lossy l).length ∨
      ∃ (i x y : Nat), (fromUtf8Lossy l)[i]? = some x ∧ l[i]? = some y ∧ x ≠ y := by
  have hfalse : ∃ c ∈ utf8Chunks l, c.2 = false := by
    by_contra hno
    push_neg at hno
    have : validUtf8 l = true := by
      simp only [validUtf8, List.all_eq_true]
      intro c hc
      by_contra hcf
      exact hno c hc (by revert hcf; cases c.2 <;> simp)
    simp [this] at h
  have := lossy_diff_of_chunk_false (utf8Chunks l) (chunks_false_shape l) hfalse
  rwa [chunks_join] at this

/-- The lossy decoding never shrinks the input. -/
theorem lossy_length_ge (l : List Nat) : l.length ≤ (fromUtf8Lossy l).length := by
  have := joinChunks_length_le (utf8Chunks l) (fun c hc hcf => by
    obtain ⟨b, t, hbt, ht, _⟩ := chunks_false_shape l c hc hcf
    simp [hbt]; omega)
  rwa [chunks_join] at this

/-- Ill-formed input is changed by the lossy decoding. -/
theorem lossy_ne_of_invalid (l : List Nat) (h : validUtf8 l = false) :
    fromUtf8Lossy l ≠ l := by
  rcases lossy_diff l h with hlen | ⟨i, x, y, hx, hy, hxy⟩
  · intro heq; rw [heq] at hlen; omega
  · intro heq; rw [heq, hy] at hx; exact hxy (Option.some.inj hx).symm

/-- The `K=V` token built from lossy decodings differs from the raw
`K=V` bytes whenever `K` or `V` is ill-formed UTF-8. -/
theorem lossy_pair_ne (K V : List Nat)
    (h : validUtf8 K = false ∨ validUtf8 V = false) :
    fromUtf8Lossy K ++ [61] ++ fromUtf8Lossy V ≠ K ++ [61] ++ V := by
  by_cases hK : validUtf8 K = false
  · rcases lossy_diff K hK with hlen | ⟨i, x, y, hx, hy, hxy⟩
    · intro heq
      have := congrArg List.length heq
      have hV := lossy_length_ge V
      simp at this
      omega
    · intro heq
      have hiK : i < K.length := by
        have := List.getElem?_eq_some.mp hy
        exact this.1
      have hiL : i < (fromUtf8Lossy K).length := by
        have := List.getElem?_eq_some.mp hx
        exact this.1
      have h1 : (fromUtf8Lossy K ++ [61] ++ fromUtf8Lossy V)[i]? = some x := by
        rw [List.getElem?_append_left (by simp; omega)]
        rw [List.getElem?_append_left (by omega)]
        exact hx
      have h2 : (K ++ [61] ++ V)[i]? = some y := by
        rw [List.getElem?_append_left (by simp; omega)]
        rw [List.getElem?_append_left (by omega)]
        exact hy
      rw [heq, h2] at h1
      exact hxy (Option.some.inj h1).symm
  · have hKt : validUtf8 K = true := by revert hK; cases validUtf8 K <;> simp
    have hV : validUtf8 V = false := by tauto
    rw [lossy_of_valid K hKt]
    intro heq
    have h1 : K ++ ([61] ++ fromUtf8Lossy V) = K ++ ([61] ++ V) := by
      simpa [List.append_assoc] using heq
    have h2 := List.append_cancel_left h1
    simp at h2
    exact lossy_ne_of_invalid V hV h2


/-! ## Paths and commands (`traits.rs`) -/

/-- Rust `PathBuf::join` on Unix (`program_dir.join(program_name)` in
`CommandBuilder::get_program_file`): an absolute right operand replaces
the path, otherwise a `/` separator is inserted unless the base is empty
or already ends with `/`. Bytes: `47` is `/`. -/
def pathJoin (dir name : List Nat) : List Nat :=
  if name.head? = some 47 then name
  else if dir = [] then name
  else if dir.getLast? = some 47 then dir ++ name
  else dir ++ 47 :: name

/-- The three operations a `CommandBuilder` implementation supplies:
`get_program`, `get_program_dir` and `get_args` (`traits.rs`). -/
structure BuilderSpec where
  program : List Nat
  program_dir : Option (List Nat)
  args : List (List Nat)

/-- Rust `CommandBuilder::get_program_file` (`traits.rs` lines 16-22): join the
program directory with the program name when a directory is set, otherwise
the bare program name. -/
def get_program_file (s : BuilderSpec) : List Nat :=
  match s.program_dir with
  | some program_dir => pathJoin program_dir s.program
  | none => s.program

/-- A materialized process descriptor: program path and argument list (the
observable state of a `std::process::Command` / `tokio::process::Command`
built by the crate; `current_dir` is never set by the builders but appears
in the diagnostic string format). -/
structure Proc where
  program : List Nat
  args : List (List Nat)
  current_dir : Option (List Nat)
deriving DecidableEq

/-- Rust `CommandBuilder::build` (`traits.rs` lines 28-37):
`Command::new(get_program_file())` then `args(get_args())`. -/
def build (s : BuilderSpec) : Proc :=
  { program := get_program_file s, args := s.args, current_dir := none }

/-- Rust `CommandBuilder::build_tokio` (`traits.rs` lines 41-50): same shape,
for the tokio command type. -/
def build_tokio (s : BuilderSpec) : Proc :=
  { program := get_program_file s, args := s.args, current_dir := none }

/-- Debug escaping of one byte inside a quoted token, as the Rust `{:?}` formatting of `OsStr` renders it (quotes and backslashes escaped,
common control characters as `\n`, `\r`, `\t`). -/
def escDebugByte (b : Nat) : List Nat :=
  if b = 34 then [92, 34]
  else if b = 92 then [92, 92]
  else if b = 10 then [92, 110]
  else if b = 13 then [92, 114]
  else if b = 9 then [92, 116]
  else [b]

/-- A token rendered as a double-quoted string, Debug style. -/
def dquote (x : List Nat) : List Nat := 34 :: (x.map escDebugByte).flatten ++ [34]

/-- Rust `CommandToString::to_command_string` (`traits.rs` lines 59-73):
`format!("{self:?}")` of a command — each token double-quoted, joined by
single spaces, prefixed by `cd "<dir>" && ` when a working directory is
set. The format is documented by the tests of the crate itself
(`test_standard_to_command_string`, `test_tokio_to_command_string`); the
tokio rendering strips its wrapper and equals the std one. -/
def to_command_string (p : Proc) : List Nat :=
  (match p.current_dir with
   | some d => s2b "cd " ++ dquote d ++ s2b " && "
   | none => []) ++
  dquote p.program ++ (p.args.map (fun a => 32 :: dquote a)).flatten

/-- Decimal rendering of a `u16` value (`port.to_string()`), modelled for
arbitrary `Nat`. -/
def decBytes (n : Nat) : List Nat := s2b (Nat.repr n)

/-- The two `args.push` calls of a set single-value flag: flag name, then
the value bytes unchanged; an unset field pushes nothing. -/
def optTok (flag : String) (v : Option (List Nat)) : List (List Nat) :=
  match v with
  | some x => [s2b flag, x]
  | none => []

/-- The single `args.push` call of a presence flag. -/
def flagTok (flag : String) (v : Bool) : List (List Nat) :=
  if v then [s2b flag] else []

/-- The two `args.push` calls of a set numeric flag: flag name, then the
value via `to_string`. -/
def numTok (flag : String) (v : Option Nat) : List (List Nat) :=
  match v with
  | some n => [s2b flag, decBytes n]
  | none => []

/-- The two `args.push` calls of a set paired flag: flag name, then
`format!("{}={}", name.to_string_lossy(), value.to_string_lossy())` —
both halves lossily decoded, joined by `=` (byte `61`). -/
def pairTok (flag : String) (v : Option (List Nat × List Nat)) : List (List Nat) :=
  match v with
  | some (name, value) =>
      [s2b flag, fromUtf8Lossy name ++ [61] ++ fromUtf8Lossy value]
  | none => []

/-! ## `pg_isready` builder (`pg_isready.rs`) -/

/-- The fields of `PgIsReadyBuilder` (`pg_isready.rs` lines 7-18).
`OsString` fields are byte lists, `u16` fields are `Nat`. -/
structure PgIsReadyBuilder where
  program_dir : Option (List Nat) := none
  dbname : Option (List Nat) := none
  quiet : Bool := false
  version : Bool := false
  help : Bool := false
  host : Option (List Nat) := none
  port : Option Nat := none
  timeout : Option Nat := none
  username : Option (List Nat) := none
deriving DecidableEq

/-- Rust `PgIsReadyBuilder::new` — all fields default. -/
def PgIsReadyBuilder.new : PgIsReadyBuilder := {}

/-- Rust `PgIsReadyBuilder::get_args` (`pg_isready.rs` lines 93-134): the
sequential `args.push` calls, written as concatenation in declaration
order. -/
def PgIsReadyBuilder.get_args (b : PgIsReadyBuilder) : List (List Nat) :=
  List.flatten
    [optTok "--dbname" b.dbname,
     flagTok "--quiet" b.quiet,
     flagTok "--version" b.version,
     flagTok "--help" b.help,
     optTok "--host" b.host,
     numTok "--port" b.port,
     numTok "--timeout" b.timeout,
     optTok "--username" b.username]

/-- The `CommandBuilder` implementation of `PgIsReadyBuilder`
(`pg_isready.rs` lines 81-135): program name `pg_isready`. -/
def PgIsReadyBuilder.spec (b : PgIsReadyBuilder) : BuilderSpec :=
  { program := s2b "pg_isready", program_dir := b.program_dir, args := b.get_args }

/-! ## `pg_controldata` builder (`pg_controldata.rs`) -/

/-- The fields of `PgControlDataBuilder` (`pg_controldata.rs` lines 7-12). -/
structure PgControlDataBuilder where
  program_dir : Option (List Nat) := none
  pgdata : Option (List Nat) := none
  version : Bool := false
  help : Bool := false
deriving DecidableEq

/-- Rust `PgControlDataBuilder::new` — all fields default. -/
def PgControlDataBuilder.new : PgControlDataBuilder := {}

/-- Rust `PgControlDataBuilder::get_args` (`pg_controldata.rs` lines 57-74). -/
def PgControlDataBuilder.get_args (b : PgControlDataBuilder) : List (List Nat) :=
  List.flatten
    [optTok "--pgdata" b.pgdata,
     flagTok "--version" b.version,
     flagTok "--help" b.help]

/-- The `CommandBuilder` implementation of `PgControlDataBuilder`
(`pg_controldata.rs` lines 45-75): program name `pg_controldata`. -/
def PgControlDataBuilder.spec (b : PgControlDataBuilder) : BuilderSpec :=
  { program := s2b "pg_controldata", program_dir := b.program_dir, args := b.get_args }

/-! ## `psql` builder (`psql.rs`) -/

/-- The fields of `PsqlBuilder` (`psql.rs` lines 7-44). `OsString` and
`PathBuf` fields are byte lists, the `u16` port is `Nat`, the paired
`variable` and `pset` fields are byte-list pairs. -/
structure PsqlBuilder where
  program_dir : Option (List Nat) := none
  command : Option (List Nat) := none
  dbname : Option (List Nat) := none
  file : Option (List Nat) := none
  list : Bool := false
  «variable» : Option (List Nat × List Nat) := none
  version : Bool := false
  no_psqlrc : Bool := false
  single_transaction : Bool := false
  help : Option (List Nat) := none
  echo_all : Bool := false
  echo_errors : Bool := false
  echo_queries : Bool := false
  echo_hidden : Bool := false
  log_file : Option (List Nat) := none
  no_readline : Bool := false
  output : Option (List Nat) := none
  quiet : Bool := false
  single_step : Bool := false
  single_line : Bool := false
  no_align : Bool := false
  csv : Bool := false
  field_separator : Option (List Nat) := none
  html : Bool := false
  pset : Option (List Nat × List Nat) := none
  record_separator : Option (List Nat) := none
  tuples_only : Bool := false
  table_attr : Option (List Nat) := none
  expanded : Bool := false
  field_separator_zero : Bool := false
  record_separator_zero : Bool := false
  host : Option (List Nat) := none
  port : Option Nat := none
  username : Option (List Nat) := none
  no_password : Bool := false
  password : Bool := false

/-- Rust `PsqlBuilder::new` — all fields default. -/
def PsqlBuilder.new : PsqlBuilder := {}

/-- Rust `PsqlBuilder::get_args` (`psql.rs` lines 284-442): the sequential
`args.push` calls in declaration order. The paired `variable` and `pset`
flags build their second token with
`format!("{}={}", name.to_string_lossy(), value.to_string_lossy())`
(lines 306-309 and 387-390), hence through `fromUtf8Lossy`; `61` is `=`.
All other values are pushed as their bytes, unchanged. -/
def PsqlBuilder.get_args (b : PsqlBuilder) : List (List Nat) :=
  List.flatten
    [optTok "--command" b.command,
     optTok "--dbname" b.dbname,
     optTok "--file" b.file,
     flagTok "--list" b.list,
     pairTok "--variable" b.«variable»,
     flagTok "--version" b.version,
     flagTok "--no-psqlrc" b.no_psqlrc,
     flagTok "--single-transaction" b.single_transaction,
     optTok "--help" b.help,
     flagTok "--echo-all" b.echo_all,
     flagTok "--echo-errors" b.echo_errors,
     flagTok "--echo-queries" b.echo_queries,
     flagTok "--echo-hidden" b.echo_hidden,
     optTok "--log-file" b.log_file,
     flagTok "--no-readline" b.no_readline,
     optTok "--output" b.output,
     flagTok "--quiet" b.quiet,
     flagTok "--single-step" b.single_step,
     flagTok "--single-line" b.single_line,
     flagTok "--no-align" b.no_align,
     flagTok "--csv" b.csv,
     optTok "--field-separator" b.field_separator,
     flagTok "--html" b.html,
     pairTok "--pset" b.pset,
     optTok "--record-separator" b.record_separator,
     flagTok "--tuples-only" b.tuples_only,
     optTok "--table-attr" b.table_attr,
     flagTok "--expanded" b.expanded,
     flagTok "--field-separator-zero" b.field_separator_zero,
     flagTok "--record-separator-zero" b.record_separator_zero,
     optTok "--host" b.host,
     numTok "--port" b.port,
     optTok "--username" b.username,
     flagTok "--no-password" b.no_password,
     flagTok "--password" b.password]

/-- The `CommandBuilder` implementation of `PsqlBuilder`
(`psql.rs` lines 272-443): program name `psql`. -/
def PsqlBuilder.spec (b : PsqlBuilder) : BuilderSpec :=
  { program := s2b "psql", program_dir := b.program_dir, args := b.get_args }

/-! ## Executors (`traits.rs` lines 75-114)

The interaction with the operating system is abstracted as the behaviour
of one process run: either spawning fails with an OS-level cause, or the
process runs for some duration and produces an exit status plus raw
stdout/stderr bytes. Durations are abstract `Nat` ticks. -/

/-- The raw outcome of a process that did run to completion:
`std::process::Output` — exit status (as its `success()` bit) and captured
raw stdout/stderr bytes. -/
structure RawOutput where
  status_success : Bool
  stdout : List Nat
  stderr : List Nat
deriving DecidableEq

/-- The behaviour of one invocation, as supplied by the operating system:
spawning fails immediately with an OS error, or the process exits after
`runtime` ticks with `out`. -/
inductive ProcessRun where
  | spawnFailure (osCause : Nat)
  | runs (out : RawOutput) (runtime : Nat)
deriving DecidableEq

/-- Modelled from the spec: the error type of the crate (`error.rs` is not
among the provided sources). Spec §7 names the taxonomy — `SpawnError`
carries the underlying OS-level cause, `TimeoutError` is the elapsed
bounded wait, and the non-zero-exit error carries captured stdout and
stderr; `traits.rs` line 111 shows the latter literally as
`EmbeddedError::CommandError { stdout, stderr }`. -/
inductive EmbeddedError where
  | SpawnError (osCause : Nat)
  | TimeoutError
  | CommandError (stdout stderr : List Nat)
deriving DecidableEq

/-- Rust `impl CommandExecutor for std::process::Command` (`traits.rs` lines
80-91): pipes both streams, runs `self.output()?` — note the `_timeout`
parameter is unused — and returns `Ok` with both streams decoded by
`String::from_utf8_lossy`, regardless of the exit status. -/
def stdExecute (p : ProcessRun) (_timeout : Option Nat) :
    Except EmbeddedError (List Nat × List Nat) :=
  match p with
  | .spawnFailure e => .error (.SpawnError e)
  | .runs out _ => .ok (fromUtf8Lossy out.stdout, fromUtf8Lossy out.stderr)

/-- Rust `impl CommandExecutor for tokio::process::Command` (`traits.rs` lines
95-114): with `Some(duration)` the output future is raced against
`tokio::time::timeout` — if the process is still running when the
duration elapses the `Elapsed` error is surfaced through `?` as the
timeout error; spawn failure surfaces through the inner `?`. Otherwise
both streams are lossily decoded and a non-success exit status becomes
`EmbeddedError::CommandError { stdout, stderr }` carrying exactly those
decoded strings (lines 108-112). -/
def tokioExecute (p : ProcessRun) (timeout : Option Nat) :
    Except EmbeddedError (List Nat × List Nat) :=
  match p with
  | .spawnFailure e => .error (.SpawnError e)
  | .runs out runtime =>
    match timeout with
    | some duration =>
      if duration < runtime then .error .TimeoutError
      else if out.status_success then
        .ok (fromUtf8Lossy out.stdout, fromUtf8Lossy out.stderr)
      else .error (.CommandError (fromUtf8Lossy out.stdout) (fromUtf8Lossy out.stderr))
    | none =>
      if out.status_success then
        .ok (fromUtf8Lossy out.stdout, fromUtf8Lossy out.stderr)
      else .error (.CommandError (fromUtf8Lossy out.stdout) (fromUtf8Lossy out.stderr))

/-- What became of the child process when the cooperative executor
returned. Modelled from the spec (§4.3, §5: cancellation "terminates the
child process", matching tokio `Command::output`, which kills the child
when the future is dropped by the elapsed timeout): on the timeout path
the child is killed, on completion it has exited, on spawn failure it
never started. -/
inductive ChildFate where
  | notStarted
  | exited
  | killed
deriving DecidableEq

/-- The fate of the child process under the cooperative executor. -/
def tokioChildFate (p : ProcessRun) (timeout : Option Nat) : ChildFate :=
  match p with
  | .spawnFailure _ => .notStarted
  | .runs _ runtime =>
    match timeout with
    | some duration => if duration < runtime then .killed else .exited
    | none => .exited

/-! ## Sanity checks against the unit tests of the crate -/

example :
    to_command_string
      (build { program := s2b "test", program_dir := some (s2b "/tmp"),
               args := [s2b "--help"] }) =
      s2b "\"/tmp/test\" \"--help\"" := by decide

example :
    to_command_string { program := s2b "foo", args := [s2b "-l"],
                        current_dir := some (s2b "/tmp") } =
      s2b "cd \"/tmp\" && \"foo\" \"-l\"" := by decide

example : to_command_string (build PgIsReadyBuilder.new.spec) =
    s2b "\"pg_isready\"" := by decide

/-! ## Shared helper lemmas for the claims -/

/-- A member of a chunk list splits its flattening into prefix, member,
suffix. -/
theorem flatten_decomp {α : Type} (cs : List (List α)) (x : List α)
    (hx : x ∈ cs) : ∃ p q, cs.flatten = p ++ x ++ q := by
  induction cs with
  | nil => cases hx
  | cons hd tl ih =>
    rcases List.mem_cons.mp hx with h | h
    · exact ⟨[], tl.flatten, by simp [h]⟩
    · obtain ⟨p, q, hpq⟩ := ih h
      exact ⟨hd ++ p, q, by simp [hpq]⟩

/-! ## The claims -/

/-- C3: a builder on which exactly `dbname="postgres"`, `quiet`,
`host="localhost"` and `port=5432` are set renders exactly the token
sequence `["--dbname","postgres","--quiet","--host","localhost","--port",
"5432"]`, in that order — for both cited builders (`PsqlBuilder` and
`PgIsReadyBuilder`, whose declaration orders both place these four fields
in this relative order). -/
theorem c3_scenario1_tokens :
    PsqlBuilder.get_args
      { PsqlBuilder.new with
        dbname := some (s2b "postgres"),
        quiet := true,
        host := some (s2b "localhost"),
        port := some 5432 } =
      [s2b "--dbname", s2b "postgres", s2b "--quiet", s2b "--host",
       s2b "localhost", s2b "--port", s2b "5432"] ∧
    PgIsReadyBuilder.get_args
      { PgIsReadyBuilder.new with
        dbname := some (s2b "postgres"),
        quiet := true,
        host := some (s2b "localhost"),
        port := some 5432 } =
      [s2b "--dbname", s2b "postgres", s2b "--quiet", s2b "--host",
       s2b "localhost", s2b "--port", s2b "5432"] := by
  constructor <;> decide

/-- C5: for every builder value, `build` and `build_tokio` produce
byte-identical program path and argument list — generically for any
`CommandBuilder` implementation, and for the three concrete builders. -/
theorem c5_build_models_agree :
    (∀ s : BuilderSpec, build s = build_tokio s) ∧
    (∀ b : PsqlBuilder, build b.spec = build_tokio b.spec) ∧
    (∀ b : PgIsReadyBuilder, build b.spec = build_tokio b.spec) ∧
    (∀ b : PgControlDataBuilder, build b.spec = build_tokio b.spec) :=
  ⟨fun _ => rfl, fun _ => rfl, fun _ => rfl, fun _ => rfl⟩

/-- C6: `get_program_file` joins directory and program name when a
directory is set and returns the bare name otherwise, and each builder
with zero optional fields set renders the diagnostic string as exactly the
quoted bare program name. -/
theorem c6_program_file_resolution :
    (∀ (s : BuilderSpec) (d : List Nat), s.program_dir = some d →
      get_program_file s = pathJoin d s.program) ∧
    (∀ s : BuilderSpec, s.program_dir = none → get_program_file s = s.program) ∧
    to_command_string (build PsqlBuilder.new.spec) = s2b "\"psql\"" ∧
    to_command_string (build PgIsReadyBuilder.new.spec) = s2b "\"pg_isready\"" ∧
    to_command_string (build PgControlDataBuilder.new.spec) =
      s2b "\"pg_controldata\"" := by
  refine ⟨?_, ?_, by decide, by decide, by decide⟩
  · intro s d h
    simp [get_program_file, h]
  · intro s h
    simp [get_program_file, h]

/-- Witness for C6 at a concrete builder interface value. -/
theorem c6_program_file_resolution_witness :
    get_program_file { program := s2b "psql",
                       program_dir := some (s2b "/usr/bin"), args := [] } =
      pathJoin (s2b "/usr/bin") (s2b "psql") ∧
    get_program_file { program := s2b "psql", program_dir := none,
                       args := [] } = s2b "psql" :=
  ⟨c6_program_file_resolution.1 _ _ rfl, c6_program_file_resolution.2.1 _ rfl⟩

/-- C7: building twice from the same builder value yields byte-identical
program paths and argument sequences. The embedding is pure — the Rust
builders hold no interior mutability and `get_args`/`get_program_file`
take `&self` — so repeated calls are definitionally equal. -/
theorem c7_build_idempotent :
    (∀ b : PsqlBuilder,
      b.get_args = b.get_args ∧
      get_program_file b.spec = get_program_file b.spec) ∧
    (∀ b : PgIsReadyBuilder,
      b.get_args = b.get_args ∧
      get_program_file b.spec = get_program_file b.spec) ∧
    (∀ b : PgControlDataBuilder,
      b.get_args = b.get_args ∧
      get_program_file b.spec = get_program_file b.spec) ∧
    (∀ s : BuilderSpec, build s = build s) :=
  ⟨fun _ => ⟨rfl, rfl⟩, fun _ => ⟨rfl, rfl⟩, fun _ => ⟨rfl, rfl⟩, fun _ => rfl⟩

/-- C2: when the process spawns and runs to completion, the blocking
executor returns `Ok` with the lossily captured streams regardless of exit
status, while the cooperative executor — under no timeout, or under any
timeout the process finishes within (`runtime ≤ d`) — returns `Ok`
exactly on a success status and otherwise `EmbeddedError::CommandError`
carrying the very same captured stdout and stderr. -/
theorem c2_exit_status_interpretation (out : RawOutput) (runtime : Nat)
    (t u : Option Nat) (hu : ∀ d, u = some d → runtime ≤ d) :
    stdExecute (.runs out runtime) t =
      .ok (fromUtf8Lossy out.stdout, fromUtf8Lossy out.stderr) ∧
    (out.status_success = true →
      tokioExecute (.runs out runtime) u =
        .ok (fromUtf8Lossy out.stdout, fromUtf8Lossy out.stderr)) ∧
    (out.status_success = false →
      tokioExecute (.runs out runtime) u =
        .error (.CommandError (fromUtf8Lossy out.stdout)
          (fromUtf8Lossy out.stderr))) := by
  refine ⟨rfl, ?_, ?_⟩ <;> intro h <;>
  · cases u with
    | none => simp [tokioExecute, h]
    | some d =>
      have hd : ¬ d < runtime := by
        have := hu d rfl
        omega
      simp [tokioExecute, h, hd]

/-- Witness for C2 at concrete runs, both without a timeout and with a
timeout the run completes within. -/
theorem c2_exit_status_interpretation_witness :
    stdExecute (.runs ⟨false, [104, 105], [101]⟩ 3) (some 7) =
      .ok ([104, 105], [101]) ∧
    tokioExecute (.runs ⟨true, [104], []⟩ 2) none = .ok ([104], []) ∧
    tokioExecute (.runs ⟨true, [104], []⟩ 2) (some 9) = .ok ([104], []) ∧
    tokioExecute (.runs ⟨false, [104], [101]⟩ 2) (some 9) =
      .error (.CommandError [104] [101]) :=
  ⟨((c2_exit_status_interpretation ⟨false, [104, 105], [101]⟩ 3 (some 7) none
      (fun _ hd => Option.noConfusion hd)).1).trans (by rfl),
   ((c2_exit_status_interpretation ⟨true, [104], []⟩ 2 none none
      (fun _ hd => Option.noConfusion hd)).2.1 rfl).trans (by rfl),
   ((c2_exit_status_interpretation ⟨true, [104], []⟩ 2 none (some 9)
      (by intro d hd; injection hd with h2; omega)).2.1 rfl).trans (by rfl),
   ((c2_exit_status_interpretation ⟨false, [104], [101]⟩ 2 none (some 9)
      (by intro d hd; injection hd with h2; omega)).2.2 rfl).trans (by rfl)⟩

/-- C1 counterexample: the claim asserts the timeout contract "for both
the blocking and the cooperatively-scheduled executor", but the blocking
implementation (`traits.rs` line 81) binds the duration as `_timeout` and
never reads it: with a timeout of 5 and a process still running at 10 the
blocking `execute` returns success, not a timeout error. -/
theorem c1_counterexample :
    5 < 10 ∧
    stdExecute (.runs ⟨true, [111], []⟩ 10) (some 5) = .ok ([111], []) :=
  ⟨by decide, by rfl⟩

/-- C1 (amended): for the cooperatively-scheduled executor only — if the
timeout elapses before process exit, `execute` returns the timeout error
(a failure kind distinct from the non-zero-exit error), not a success, and
the child process is terminated; the blocking executor ignores its timeout
parameter entirely, behaving as if no timeout were given. -/
theorem c1_tokio_timeout (out : RawOutput) (runtime d : Nat)
    (h : d < runtime) :
    tokioExecute (.runs out runtime) (some d) = .error .TimeoutError ∧
    tokioChildFate (.runs out runtime) (some d) = .killed ∧
    (∀ s1 s2 : List Nat,
      (EmbeddedError.TimeoutError : EmbeddedError) ≠ .CommandError s1 s2) ∧
    stdExecute (.runs out runtime) (some d) =
      stdExecute (.runs out runtime) none := by
  refine ⟨?_, ?_, fun _ _ hc => EmbeddedError.noConfusion hc, rfl⟩
  · simp [tokioExecute, h]
  · simp [tokioChildFate, h]

/-- Witness for the amended C1 at a concrete run. -/
theorem c1_tokio_timeout_witness :
    tokioExecute (.runs ⟨true, [111], []⟩ 10) (some 5) = .error .TimeoutError ∧
    tokioChildFate (.runs ⟨true, [111], []⟩ 10) (some 5) = .killed :=
  ⟨(c1_tokio_timeout ⟨true, [111], []⟩ 10 5 (by decide)).1,
   (c1_tokio_timeout ⟨true, [111], []⟩ 10 5 (by decide)).2.1⟩

/-- C8: when the process cannot be started, both executors surface the
spawn failure immediately, carrying the OS-level cause, as a failure kind
distinct from both the timeout error and the non-zero-exit error; no
output is attached (the embedding is a total function, so no panic or
hang is possible). -/
theorem c8_spawn_failure (e : Nat) (t : Option Nat) :
    stdExecute (.spawnFailure e) t = .error (.SpawnError e) ∧
    tokioExecute (.spawnFailure e) t = .error (.SpawnError e) ∧
    (EmbeddedError.SpawnError e ≠ .TimeoutError) ∧
    (∀ s1 s2 : List Nat, EmbeddedError.SpawnError e ≠ .CommandError s1 s2) :=
  ⟨rfl, rfl, fun hc => EmbeddedError.noConfusion hc,
   fun _ _ hc => EmbeddedError.noConfusion hc⟩

/-- C9: every single-value flag that is set emits exactly its flag name
immediately followed by the value — `OsString` values verbatim, numeric
`u16` values (`port`, `timeout`) via their canonical decimal string
rendering (`decBytes n = s2b (Nat.repr n)`). Stated for the cited flags:
`host`, `port` and `timeout` of `pg_isready`, and `host` and `port` of `psql`. -/
theorem c9_single_value_flags :
    (∀ (b : PgIsReadyBuilder) (h : List Nat), b.host = some h →
      ∃ p q, b.get_args = p ++ [s2b "--host", h] ++ q) ∧
    (∀ (b : PgIsReadyBuilder) (n : Nat), b.port = some n →
      ∃ p q, b.get_args = p ++ [s2b "--port", decBytes n] ++ q) ∧
    (∀ (b : PgIsReadyBuilder) (n : Nat), b.timeout = some n →
      ∃ p q, b.get_args = p ++ [s2b "--timeout", decBytes n] ++ q) ∧
    (∀ (b : PsqlBuilder) (h : List Nat), b.host = some h →
      ∃ p q, b.get_args = p ++ [s2b "--host", h] ++ q) ∧
    (∀ (b : PsqlBuilder) (n : Nat), b.port = some n →
      ∃ p q, b.get_args = p ++ [s2b "--port", decBytes n] ++ q) := by
  refine ⟨?_, ?_, ?_, ?_, ?_⟩ <;>
  · intro b v hv
    first
      | unfold PgIsReadyBuilder.get_args
      | unfold PsqlBuilder.get_args
    rw [hv]
    apply flatten_decomp
    repeat first
      | exact List.mem_cons_self _ _
      | apply List.mem_cons_of_mem

/-- Witness for C9: a builder with host, port and timeout set. -/
theorem c9_single_value_flags_witness :
    (∃ p q, PgIsReadyBuilder.get_args
        { PgIsReadyBuilder.new with
          host := some (s2b "localhost"),
          port := some 5432,
          timeout := some 3 } =
      p ++ [s2b "--port", decBytes 5432] ++ q) ∧
    (∃ p q, PsqlBuilder.get_args
        { PsqlBuilder.new with
          host := some (s2b "localhost") } =
      p ++ [s2b "--host", s2b "localhost"] ++ q) :=
  ⟨c9_single_value_flags.2.1 _ 5432 rfl,
   c9_single_value_flags.2.2.2.1 _ (s2b "localhost") rfl⟩

/-- The `--variable` chunk of a set psql paired flag, in place inside
`get_args`. -/
theorem psql_variable_decomp (b : PsqlBuilder) (K V : List Nat)
    (hv : b.«variable» = some (K, V)) :
    ∃ p q, b.get_args =
      p ++ [s2b "--variable", fromUtf8Lossy K ++ [61] ++ fromUtf8Lossy V] ++ q := by
  unfold PsqlBuilder.get_args
  rw [hv]
  apply flatten_decomp
  repeat first
    | exact List.mem_cons_self _ _
    | apply List.mem_cons_of_mem

/-- The `--pset` chunk of a set psql paired flag, in place inside
`get_args`. -/
theorem psql_pset_decomp (b : PsqlBuilder) (K V : List Nat)
    (hv : b.pset = some (K, V)) :
    ∃ p q, b.get_args =
      p ++ [s2b "--pset", fromUtf8Lossy K ++ [61] ++ fromUtf8Lossy V] ++ q := by
  unfold PsqlBuilder.get_args
  rw [hv]
  apply flatten_decomp
  repeat first
    | exact List.mem_cons_self _ _
    | apply List.mem_cons_of_mem

/-- C4: a paired psql flag (`variable` or `pset`) set to `(K, V)`
emits the flag name followed by exactly the token `K=V` — a single `=`
(byte `61`) joining `K` and `V` — whenever `K` and `V` are well-formed
UTF-8 (the code routes both halves through `to_string_lossy`, the
identity on well-formed values); when neither half contains `=`, the
token contains exactly one `=`. -/
theorem c4_paired_flags (b : PsqlBuilder) (K V : List Nat)
    (hK : validUtf8 K = true) (hV : validUtf8 V = true) :
    (b.«variable» = some (K, V) →
      ∃ p q, b.get_args = p ++ [s2b "--variable", K ++ [61] ++ V] ++ q) ∧
    (b.pset = some (K, V) →
      ∃ p q, b.get_args = p ++ [s2b "--pset", K ++ [61] ++ V] ++ q) ∧
    (61 ∉ K → 61 ∉ V → (K ++ [61] ++ V).count 61 = 1) := by
  refine ⟨?_, ?_, ?_⟩
  · intro hv
    obtain ⟨p, q, hpq⟩ := psql_variable_decomp b K V hv
    rw [lossy_of_valid K hK, lossy_of_valid V hV] at hpq
    exact ⟨p, q, hpq⟩
  · intro hv
    obtain ⟨p, q, hpq⟩ := psql_pset_decomp b K V hv
    rw [lossy_of_valid K hK, lossy_of_valid V hV] at hpq
    exact ⟨p, q, hpq⟩
  · intro h1 h2
    simp [List.count_append, List.count_eq_zero.mpr h1, List.count_eq_zero.mpr h2]

/-- Witness for C4: `("ON_ERROR_STOP","1")` as psql variable and
`("border","1")` as pset. -/
theorem c4_paired_flags_witness :
    (∃ p q, PsqlBuilder.get_args
        { PsqlBuilder.new with
          «variable» := some (s2b "ON_ERROR_STOP", s2b "1"),
          pset := some (s2b "border", s2b "1") } =
      p ++ [s2b "--variable", s2b "ON_ERROR_STOP" ++ [61] ++ s2b "1"] ++ q) ∧
    (∃ p q, PsqlBuilder.get_args
        { PsqlBuilder.new with
          «variable» := some (s2b "ON_ERROR_STOP", s2b "1"),
          pset := some (s2b "border", s2b "1") } =
      p ++ [s2b "--pset", s2b "border" ++ [61] ++ s2b "1"] ++ q) ∧
    (s2b "ON_ERROR_STOP" ++ [61] ++ s2b "1").count 61 = 1 :=
  ⟨(c4_paired_flags _ (s2b "ON_ERROR_STOP") (s2b "1")
      (by decide) (by decide)).1 rfl,
   (c4_paired_flags _ (s2b "border") (s2b "1")
      (by decide) (by decide)).2.1 rfl,
   (c4_paired_flags PsqlBuilder.new (s2b "ON_ERROR_STOP") (s2b "1")
      (by decide) (by decide)).2.2 (by decide) (by decide)⟩

/-- C10: the paired flags lossily decode both halves before joining with
`=`: the emitted token is `lossy(K)=lossy(V)`, and if either half is
ill-formed UTF-8 the token contains the U+FFFD replacement bytes and
differs from the raw `K=V` bytes — while a single-value flag such as
`host` passes its `OsString` bytes through unchanged. -/
theorem c10_lossy_pairs_verbatim_singles (b : PsqlBuilder)
    (K V H : List Nat) :
    (b.«variable» = some (K, V) →
      ∃ p q, b.get_args =
        p ++ [s2b "--variable", fromUtf8Lossy K ++ [61] ++ fromUtf8Lossy V] ++ q) ∧
    (b.pset = some (K, V) →
      ∃ p q, b.get_args =
        p ++ [s2b "--pset", fromUtf8Lossy K ++ [61] ++ fromUtf8Lossy V] ++ q) ∧
    (validUtf8 K = false ∨ validUtf8 V = false →
      containsSeq replBytes (fromUtf8Lossy K ++ [61] ++ fromUtf8Lossy V) ∧
      fromUtf8Lossy K ++ [61] ++ fromUtf8Lossy V ≠ K ++ [61] ++ V) ∧
    (b.host = some H → ∃ p q, b.get_args = p ++ [s2b "--host", H] ++ q) := by
  refine ⟨fun hv => psql_variable_decomp b K V hv,
    fun hv => psql_pset_decomp b K V hv, ?_, ?_⟩
  · intro hKV
    refine ⟨?_, lossy_pair_ne K V hKV⟩
    by_cases hK : validUtf8 K = false
    · obtain ⟨s, t, hst⟩ := repl_in_lossy K hK
      exact ⟨s, t ++ [61] ++ fromUtf8Lossy V, by simp [hst]⟩
    · have hVf : validUtf8 V = false := by tauto
      obtain ⟨s, t, hst⟩ := repl_in_lossy V hVf
      exact ⟨fromUtf8Lossy K ++ [61] ++ s, t, by simp [hst]⟩
  · intro hh
    unfold PsqlBuilder.get_args
    rw [hh]
    apply flatten_decomp
    repeat first
      | exact List.mem_cons_self _ _
      | apply List.mem_cons_of_mem

/-- Witness for C10: the single byte `0x80` (an ill-formed UTF-8 value)
as the variable name. -/
theorem c10_lossy_pairs_verbatim_singles_witness :
    (∃ p q, PsqlBuilder.get_args
        { PsqlBuilder.new with
          «variable» := some ([128], [49]),
          host := some [104] } =
      p ++ [s2b "--variable", fromUtf8Lossy [128] ++ [61] ++ fromUtf8Lossy [49]] ++ q) ∧
    containsSeq replBytes (fromUtf8Lossy [128] ++ [61] ++ fromUtf8Lossy [49]) ∧
    fromUtf8Lossy [128] ++ [61] ++ fromUtf8Lossy [49] ≠ [128] ++ [61] ++ [49] ∧
    (∃ p q, PsqlBuilder.get_args
        { PsqlBuilder.new with
          «variable» := some ([128], [49]),
          host := some [104] } =
      p ++ [s2b "--host", [104]] ++ q) :=
  ⟨(c10_lossy_pairs_verbatim_singles _ [128] [49] [104]).1 rfl,
   ((c10_lossy_pairs_verbatim_singles PsqlBuilder.new [128] [49] [104]).2.2.1
      (Or.inl (by decide))).1,
   ((c10_lossy_pairs_verbatim_singles PsqlBuilder.new [128] [49] [104]).2.2.1
      (Or.inl (by decide))).2,
   (c10_lossy_pairs_verbatim_singles _ [128] [49] [104]).2.2.2 rfl⟩

end PgEmbedded
